import Mathlib

/-!
Verification of the in-process response cache of the `ohdsi-webapi` client
library (module `ohdsi_webapi/cache.py`): cache entries with TTL expiry, a
bounded LRU store, the deterministic cache-key builder, the `cached_method`
decorator with its `force_refresh` bypass, and the global introspection
functions `cache_stats` / `cache_contents` / `clear_cache`.

The cache module itself is not part of the provided sources; every definition
below is modelled from the specification, with the observable details (key
format, stats field names, contents shape) pinned by the repository's unit
tests (`tests/unit/test_cache.py`) and integration tests
(`tests/integration/test_cache_integration.py`), which exercise the module
directly.  Time is modelled as an explicit natural-number parameter `now`
threaded through every operation, replacing Python's `time.time()`.
-/

namespace OhdsiCache

/-- Modelled from the spec: Python runtime values as they appear in cached
calls — strings, ints, booleans, `None`, lists, dicts, and opaque objects
(identified by their type name, e.g. `MagicMock`).  This is the value
universe over which the cache stores results and renders key arguments. -/
inductive PyValue where
  | str (s : String)
  | int (n : Int)
  | bool (b : Bool)
  | none
  | list (xs : List PyValue)
  | dict (kvs : List (String × PyValue))
  | obj (typeName : String)

/-- `True` iff the value is Python `None`. -/
def PyValue.isNone : PyValue → Bool
  | .none => true
  | _ => false

mutual

/-- Modelled from the spec: the "natural textual representation" (`str()`)
of a value, used by the key builder for non-string arguments.  Integers
render in decimal, booleans as `True`/`False`, `None` as `None`; containers
render their elements recursively (their exact textual form is not pinned by
any test, only that it is deterministic). -/
def py_str : PyValue → String
  | .str s => s
  | .int n => toString n
  | .bool b => if b then "True" else "False"
  | .none => "None"
  | .list xs => "[" ++ String.intercalate ", " (py_str_list xs) ++ "]"
  | .dict kvs => "\x7b" ++ String.intercalate ", " (py_str_dict kvs) ++ "\x7d"
  | .obj typeName => "<" ++ typeName ++ ">"

/-- Renders each element of a list. -/
def py_str_list : List PyValue → List String
  | [] => []
  | x :: xs => py_str x :: py_str_list xs

/-- Renders each `key: value` pair of a dict. -/
def py_str_dict : List (String × PyValue) → List String
  | [] => []
  | (k, v) :: kvs => (k ++ ": " ++ py_str v) :: py_str_dict kvs

end

/-- Modelled from the spec: how the key builder renders one argument —
string arguments are wrapped in double quotes, every other value uses its
natural textual representation (`tests/unit/test_cache.py`,
`test_cache_key_with_string_args`). -/
def render_arg : PyValue → String
  | .str s => "\"" ++ s ++ "\""
  | v => py_str v

/-- Splits a character list at every dot, accumulating the current segment
in reverse (an executable counterpart of Python `name.split(".")`). -/
def splitDotsAux : List Char → List Char → List (List Char)
  | [], acc => [acc.reverse]
  | c :: cs, acc =>
    if c = '.' then acc.reverse :: splitDotsAux cs []
    else splitDotsAux cs (c :: acc)

/-- The dot-separated segments of a string, Python `s.split(".")`. -/
def splitDots (s : String) : List String :=
  (splitDotsAux s.data []).map String.mk

/-- Modelled from the spec: a qualified method name is shortened to its last
two dot-separated segments (owning type + method), discarding module/package
prefixes — Python `".".join(name.split(".")[-2:])`
(`test_cache_key_full_method_name_cleanup`). -/
def shorten_method_name (name : String) : String :=
  let parts := splitDots name
  String.intercalate "." (parts.drop (parts.length - 2))

/-- Lexicographic order on character lists (an executable counterpart of
Python's string comparison used when sorting keyword-argument names). -/
def charListLe : List Char → List Char → Bool
  | [], _ => true
  | _ :: _, [] => false
  | a :: as, b :: bs =>
    if a < b then true else if b < a then false else charListLe as bs

/-- Lexicographic comparison of strings by their characters. -/
def strLeB (a b : String) : Bool := charListLe a.data b.data

/-- Ordering of keyword arguments by parameter name (used to sort them
lexicographically in the key). -/
def kwLe (a b : String × PyValue) : Prop := strLeB a.1 b.1 = true

instance : DecidableRel kwLe := fun a b => inferInstanceAs (Decidable (strLeB a.1 b.1 = true))

theorem charListLe_total : ∀ a b : List Char, charListLe a b = true ∨ charListLe b a = true
  | [], _ => Or.inl rfl
  | _ :: _, [] => Or.inr rfl
  | x :: xs, y :: ys => by
    rcases lt_trichotomy x y with h | h | h
    · left; simp [charListLe, h]
    · subst h
      rcases charListLe_total xs ys with h2 | h2
      · left; simp [charListLe, lt_irrefl, h2]
      · right; simp [charListLe, lt_irrefl, h2]
    · right; simp [charListLe, h]

theorem charListLe_trans :
    ∀ a b c : List Char, charListLe a b = true → charListLe b c = true →
      charListLe a c = true
  | [], _, _, _, _ => rfl
  | _ :: _, [], _, hab, _ => by simp [charListLe] at hab
  | _ :: _, _ :: _, [], _, hbc => by simp [charListLe] at hbc
  | x :: xs, y :: ys, z :: zs, hab, hbc => by
    rcases lt_trichotomy x y with hxy | hxy | hxy
    · rcases lt_trichotomy y z with hyz | hyz | hyz
      · simp [charListLe, lt_trans hxy hyz]
      · subst hyz; simp [charListLe, hxy]
      · simp [charListLe, hyz, lt_asymm hyz] at hbc
    · subst hxy
      simp [charListLe, lt_irrefl] at hab
      rcases lt_trichotomy x z with hxz | hxz | hxz
      · simp [charListLe, hxz]
      · subst hxz
        simp [charListLe, lt_irrefl] at hbc ⊢
        exact charListLe_trans xs ys zs hab hbc
      · simp [charListLe, hxz, lt_asymm hxz] at hbc
    · simp [charListLe, hxy, lt_asymm hxy] at hab

theorem charListLe_antisymm :
    ∀ a b : List Char, charListLe a b = true → charListLe b a = true → a = b
  | [], [], _, _ => rfl
  | [], _ :: _, _, hba => by simp [charListLe] at hba
  | _ :: _, [], hab, _ => by simp [charListLe] at hab
  | x :: xs, y :: ys, hab, hba => by
    rcases lt_trichotomy x y with h | h | h
    · simp [charListLe, h, lt_asymm h] at hba
    · subst h
      simp [charListLe, lt_irrefl] at hab hba
      rw [charListLe_antisymm xs ys hab hba]
    · simp [charListLe, h, lt_asymm h] at hab

theorem strLeB_antisymm {a b : String} (hab : strLeB a b = true)
    (hba : strLeB b a = true) : a = b := by
  cases a with
  | mk da =>
    cases b with
    | mk db => exact congrArg String.mk (charListLe_antisymm da db hab hba)

instance : IsTotal (String × PyValue) kwLe := ⟨fun a b => charListLe_total a.1.data b.1.data⟩

instance : IsTrans (String × PyValue) kwLe :=
  ⟨fun _ _ _ h1 h2 => charListLe_trans _ _ _ h1 h2⟩

/-- Strict version of `kwLe`, used to show sorted keyword lists with
pairwise-distinct names are unique. -/
def kwLt (a b : String × PyValue) : Prop := kwLe a b ∧ a.1 ≠ b.1

instance : IsAntisymm (String × PyValue) kwLt :=
  ⟨fun _ _ h1 h2 => absurd (strLeB_antisymm h1.1 h2.1) h1.2⟩

/-- Keyword arguments sorted lexicographically by name. -/
def sort_kwargs (kwargs : List (String × PyValue)) : List (String × PyValue) :=
  List.insertionSort kwLe kwargs

/-- Modelled from the spec: `get_cache_key(*args, method_name, **kwargs)` —
the deterministic human-readable cache key
`"<ShortName>(<arg1>, ..., <kw1>=<v1>, ...)"` with positional arguments in
call order and keyword arguments sorted by name
(`tests/unit/test_cache.py`, `TestCacheKeyGeneration`). -/
def get_cache_key (args : List PyValue) (method_name : String)
    (kwargs : List (String × PyValue)) : String :=
  let parts := args.map render_arg
    ++ (sort_kwargs kwargs).map (fun kv => kv.1 ++ "=" ++ render_arg kv.2)
  shorten_method_name method_name ++ "(" ++ String.intercalate ", " parts ++ ")"

/-- Modelled from the spec: one cached value with its insertion timestamp and
time-to-live (`CacheEntry` in `ohdsi_webapi/cache.py`). -/
structure CacheEntry where
  value : PyValue
  created_at : Nat
  ttl_seconds : Nat

/-- Modelled from the spec: `is_expired` — an entry is expired exactly when
`now - created_at >= ttl_seconds` (spec §4.1); with natural-number time a
TTL of 0 makes the entry always expired. -/
def CacheEntry.is_expired (e : CacheEntry) (now : Nat) : Bool :=
  e.ttl_seconds ≤ now - e.created_at

/-- Modelled from the spec: the bounded LRU store `WebApiCache`.  `entries`
is an ordered association list tracking recency of access:
least-recently-used at the head, most-recently-used at the tail (the shape
of a Python `OrderedDict` used with `move_to_end`).  `ttl_seconds` is the
store's default TTL used when `set` is given none. -/
structure WebApiCache where
  max_size : Nat
  ttl_seconds : Nat
  entries : List (String × CacheEntry)

/-- First entry stored under `key`, if any. -/
def lookupEntry (key : String) : List (String × CacheEntry) → Option CacheEntry
  | [] => Option.none
  | (k, e) :: rest => if k = key then some e else lookupEntry key rest

/-- Removes every entry stored under `key`. -/
def removeKey (key : String) : List (String × CacheEntry) → List (String × CacheEntry)
  | [] => []
  | (k, e) :: rest => if k = key then removeKey key rest else (k, e) :: removeKey key rest

/-- Number of live entries in the store. -/
def WebApiCache.size (c : WebApiCache) : Nat := c.entries.length

/-- Modelled from the spec: `get(key)` — absent key is a miss; an expired
entry is removed and treated as a miss (lazy expiry); a live entry is
promoted to most-recently-used and its value returned.  Returns the value
(or `none`) together with the updated store. -/
def WebApiCache.get (c : WebApiCache) (key : String) (now : Nat) :
    Option PyValue × WebApiCache :=
  match lookupEntry key c.entries with
  | Option.none => (Option.none, c)
  | some e =>
    if e.is_expired now then
      (Option.none, { c with entries := removeKey key c.entries })
    else
      (some e.value, { c with entries := removeKey key c.entries ++ [(key, e)] })

/-- Modelled from the spec: `set(key, value, ttl_seconds)` — inserts or
replaces the entry for `key`, stamped with the current time, placing it
most-recently-used; when no TTL is given the store's default applies; if
capacity would be exceeded, least-recently-used entries are evicted (dropped
from the head) until `size ≤ capacity`. -/
def WebApiCache.set (c : WebApiCache) (key : String) (value : PyValue)
    (ttl : Option Nat) (now : Nat) : WebApiCache :=
  let entry : CacheEntry := ⟨value, now, ttl.getD c.ttl_seconds⟩
  let l := removeKey key c.entries ++ [(key, entry)]
  { c with entries := l.drop (l.length - c.max_size) }

/-- Modelled from the spec: `clear()` — removes all entries, keeps capacity
and default TTL. -/
def WebApiCache.clear (c : WebApiCache) : WebApiCache :=
  { c with entries := [] }

/-- Modelled from the spec: the coarse human-readable description of a stored
value's shape used by `cache_contents` — `"list (N items)"`,
`"dict (N keys)"`, or the value's type name
(`test_cache_contents_data_type_formatting`). -/
def data_type : PyValue → String
  | .list xs => "list (" ++ toString xs.length ++ " items)"
  | .dict kvs => "dict (" ++ toString kvs.length ++ " keys)"
  | .str _ => "str"
  | .int _ => "int"
  | .bool _ => "bool"
  | .none => "NoneType"
  | .obj typeName => typeName

/-- Modelled from the spec: `stats()` — a read-only snapshot dict with the
current size, the capacity, the process-wide enabled switch and the store's
default TTL.  The unit tests pin the field names as `size`, `max_size`,
`enabled` and `ttl_seconds` (`test_cache_stats`,
`test_cache_stats_function`). -/
def WebApiCache.stats (c : WebApiCache) (enabled : Bool) : PyValue :=
  .dict [("size", .int (c.size : Int)),
         ("max_size", .int (c.max_size : Int)),
         ("enabled", .bool enabled),
         ("ttl_seconds", .int (c.ttl_seconds : Int))]

/-- Modelled from the spec: the per-entry introspection record of
`cache_contents` — key, coarse data-type description, seconds since
creation and seconds until expiry, both computed against the current time
at call time (`test_cache_contents_with_data`). -/
def contents_record (now : Nat) (kv : String × CacheEntry) : PyValue :=
  .dict [("key", .str kv.1),
         ("data_type", .str (data_type kv.2.value)),
         ("created_ago", .int ((now : Int) - (kv.2.created_at : Int))),
         ("expires_in",
           .int ((kv.2.created_at : Int) + (kv.2.ttl_seconds : Int) - (now : Int)))]

/-- Modelled from the spec: the itemized list of per-entry records for the
store's current entries. -/
def WebApiCache.contents (c : WebApiCache) (now : Nat) : List PyValue :=
  c.entries.map (contents_record now)

/-- Modelled from the spec: the global `cache_stats()` — the shared store's
stats snapshot. -/
def cache_stats (c : WebApiCache) (enabled : Bool) : PyValue :=
  c.stats enabled

/-- Modelled from the spec: the global `cache_contents()` — the unit and
integration tests pin its shape as a dict with an `entries` list of
per-entry records and a `stats` snapshot
(`test_cache_contents_with_data`, `contents["entries"]`). -/
def cache_contents (c : WebApiCache) (enabled : Bool) (now : Nat) : PyValue :=
  .dict [("entries", .list (c.contents now)), ("stats", c.stats enabled)]

/-- Modelled from the spec: the global `clear_cache()` — empties the shared
store. -/
def clear_cache (c : WebApiCache) : WebApiCache :=
  c.clear

/-- Modelled from the spec: per-decoration configuration of `cached_method`
— the method's TTL and a per-method enable override (default true). -/
structure DecoratorConfig where
  ttl_seconds : Nat
  enabled : Bool := true

/-- Modelled from the spec: one pass through the `cached_method` wrapper for
a fixed argument list.  `f` is the underlying bound call (already applied to
the receiver and call arguments): it takes the callee's internal state and
either fails with an error or returns a result and a new state —
instrumenting the state lets theorems count invocations.  `args`/`kwargs`
are the logical call arguments after the receiver and the `force_refresh`
flag have been stripped.  When caching is off (per-method or via the
process-wide `CACHE_ENABLED`), the call passes straight through.  When
`force_refresh` is set, both the cache read and the cache write are skipped.
Otherwise: compute the key, look it up (lazily removing an expired entry),
return a hit directly, and on a miss invoke `f`, caching only a successful
result.  Returns the call outcome together with the resulting store. -/
def cached_call {σ ε : Type} (cfg : DecoratorConfig) (globalEnabled : Bool)
    (method_name : String) (f : σ → Except ε (PyValue × σ))
    (args : List PyValue) (kwargs : List (String × PyValue))
    (force_refresh : Bool) (st : σ) (cache : WebApiCache) (now : Nat) :
    Except ε (PyValue × σ) × WebApiCache :=
  if cfg.enabled && globalEnabled then
    if force_refresh then
      (f st, cache)
    else
      let key := get_cache_key args method_name kwargs
      match cache.get key now with
      | (some v, cache') => (Except.ok (v, st), cache')
      | (Option.none, cache') =>
        match f st with
        | Except.error e => (Except.error e, cache')
        | Except.ok (v, st') =>
          (Except.ok (v, st'), cache'.set key v (some cfg.ttl_seconds) now)
  else
    (f st, cache)

/-- One declared keyword parameter of a decorated method: its name and its
default value (`Option.none` when the parameter is required). -/
structure Param where
  name : String
  default : Option PyValue

/-- First value bound to `name` among the caller-supplied keyword
arguments. -/
def kwargsLookup (name : String) : List (String × PyValue) → Option PyValue
  | [] => Option.none
  | (k, v) :: rest => if k = name then some v else kwargsLookup name rest

/-- Modelled from the spec: how the decorator assembles the keyword
arguments that feed key construction — each declared parameter is bound to
the caller-supplied value or, when omitted, to its declared default, and
every parameter whose bound value is `None` is excluded from the key
(`test_vocabulary_search_caching` pins the resulting keys, e.g.
`VocabularyService.search("diabetes", page=1, page_size=20)`). -/
def bind_kwargs : List Param → List (String × PyValue) → List (String × PyValue)
  | [], _ => []
  | p :: ps, kwargs =>
    let bound := match kwargsLookup p.name kwargs with
      | some v => some v
      | Option.none => p.default
    match bound with
    | some v =>
      if v.isNone then bind_kwargs ps kwargs
      else (p.name, v) :: bind_kwargs ps kwargs
    | Option.none => bind_kwargs ps kwargs

/-- The declared keyword parameters of `VocabularyService.search` with their
defaults, transcribed from
`src/ohdsi_webapi/services/vocabulary.py` (`search`): all filters default to
`None`, pagination defaults to `page=1`, `page_size=20`. -/
def searchParams : List Param :=
  [⟨"vocabulary_id", some PyValue.none⟩,
   ⟨"concept_class_id", some PyValue.none⟩,
   ⟨"domain_id", some PyValue.none⟩,
   ⟨"standard_concept", some PyValue.none⟩,
   ⟨"invalid_reason", some PyValue.none⟩,
   ⟨"page", some (PyValue.int 1)⟩,
   ⟨"page_size", some (PyValue.int 20)⟩,
   ⟨"sort", some PyValue.none⟩]

/-- The qualified name of `VocabularyService.search` as seen by the
decorator. -/
def searchQualifiedName : String :=
  "ohdsi_webapi.services.vocabulary.VocabularyService.search"

/-- `True` iff the value is a Python list. -/
def PyValue.isList : PyValue → Bool
  | .list _ => true
  | _ => false

/-- The field names of a Python dict value (empty for non-dicts). -/
def dictKeys : PyValue → List String
  | .dict kvs => kvs.map Prod.fst
  | _ => []

/-- Looks a field up in a Python dict value. -/
def dictGet (key : String) : PyValue → Option PyValue
  | .dict kvs =>
    match kvs.find? (fun kv => kv.1 = key) with
    | some kv => some kv.2
    | Option.none => Option.none
  | _ => Option.none

theorem lookupEntry_removeKey_self (key : String) :
    ∀ l : List (String × CacheEntry), lookupEntry key (removeKey key l) = Option.none
  | [] => rfl
  | (k, e) :: rest => by
    by_cases h : k = key
    · simp [removeKey, h, lookupEntry_removeKey_self key rest]
    · simp [removeKey, lookupEntry, h, lookupEntry_removeKey_self key rest]

theorem mem_removeKey_ne (key : String) :
    ∀ l : List (String × CacheEntry), ∀ p ∈ removeKey key l, p.1 ≠ key
  | [] => by intro p hp; simp [removeKey] at hp
  | (k, e) :: rest => by
    intro p hp
    by_cases h : k = key
    · rw [removeKey, if_pos h] at hp
      exact mem_removeKey_ne key rest p hp
    · rw [removeKey, if_neg h] at hp
      rcases List.mem_cons.mp hp with h2 | h2
      · rw [h2]; exact h
      · exact mem_removeKey_ne key rest p h2

theorem lookupEntry_eq_none_of_forall_ne (key : String) :
    ∀ l : List (String × CacheEntry), (∀ p ∈ l, p.1 ≠ key) →
      lookupEntry key l = Option.none
  | [], _ => rfl
  | (k, e) :: rest, h => by
    have hk : k ≠ key := h (k, e) (List.mem_cons_self _ _)
    rw [lookupEntry, if_neg hk]
    exact lookupEntry_eq_none_of_forall_ne key rest fun p hp => h p (List.mem_cons_of_mem _ hp)

theorem lookupEntry_append_of_none {key : String} :
    ∀ {l₁ : List (String × CacheEntry)} (l₂ : List (String × CacheEntry)),
      lookupEntry key l₁ = Option.none →
      lookupEntry key (l₁ ++ l₂) = lookupEntry key l₂
  | [], _, _ => rfl
  | (k, e) :: rest, l₂, h => by
    by_cases hk : k = key
    · rw [lookupEntry, if_pos hk] at h; cases h
    · rw [lookupEntry, if_neg hk] at h
      rw [List.cons_append, lookupEntry, if_neg hk]
      exact lookupEntry_append_of_none l₂ h

/-- After `set key value`, the entry stored under `key` is exactly the fresh
one — provided the store can hold at least one entry, eviction never removes
the entry just inserted. -/
theorem lookupEntry_set_self (c : WebApiCache) (key : String) (value : PyValue)
    (ttl : Option Nat) (now : Nat) (hCap : 1 ≤ c.max_size) :
    lookupEntry key (c.set key value ttl now).entries
      = some ⟨value, now, ttl.getD c.ttl_seconds⟩ := by
  have hle : (removeKey key c.entries ++ [(key, (⟨value, now, ttl.getD c.ttl_seconds⟩ : CacheEntry))]).length
        - c.max_size ≤ (removeKey key c.entries).length := by
    simp only [List.length_append, List.length_cons, List.length_nil]
    omega
  rw [WebApiCache.set]
  simp only
  rw [List.drop_append_of_le_length hle]
  have hnone : lookupEntry key ((removeKey key c.entries).drop
      ((removeKey key c.entries ++ [(key, (⟨value, now, ttl.getD c.ttl_seconds⟩ : CacheEntry))]).length - c.max_size)) = Option.none := by
    refine lookupEntry_eq_none_of_forall_ne key _ fun p hp => ?_
    exact mem_removeKey_ne key c.entries p (List.drop_subset _ _ hp)
  rw [lookupEntry_append_of_none _ hnone, lookupEntry, if_pos rfl]

theorem get_preserves_max_size (c : WebApiCache) (key : String) (now : Nat) :
    (c.get key now).2.max_size = c.max_size := by
  rw [WebApiCache.get]
  cases lookupEntry key c.entries with
  | none => rfl
  | some e =>
    by_cases h : e.is_expired now
    · simp [h]
    · simp [h]

/-- Sorting keyword arguments is insensitive to their original order: two
permutations of the same keyword list (with pairwise-distinct names, as
Python guarantees for `**kwargs`) sort to the same list. -/
theorem sort_kwargs_eq_of_perm {kw₁ kw₂ : List (String × PyValue)}
    (h : kw₁.Perm kw₂) (hnd : (kw₁.map Prod.fst).Nodup) :
    sort_kwargs kw₁ = sort_kwargs kw₂ := by
  have hp₁ : (sort_kwargs kw₁).Perm kw₁ := List.perm_insertionSort kwLe kw₁
  have hp₂ : (sort_kwargs kw₂).Perm kw₂ := List.perm_insertionSort kwLe kw₂
  have hp : (sort_kwargs kw₁).Perm (sort_kwargs kw₂) :=
    hp₁.trans (h.trans hp₂.symm)
  have hlt : ∀ kw : List (String × PyValue), (kw.map Prod.fst).Nodup →
      (sort_kwargs kw).Sorted kwLt := by
    intro kw hkwnd
    have hle : (sort_kwargs kw).Sorted kwLe := List.sorted_insertionSort kwLe kw
    have hndkw : ((sort_kwargs kw).map Prod.fst).Nodup :=
      ((List.perm_insertionSort kwLe kw).map Prod.fst).nodup_iff.mpr hkwnd
    have hne : (sort_kwargs kw).Pairwise fun a b => a.1 ≠ b.1 :=
      List.pairwise_map.mp hndkw
    exact (List.Pairwise.and hle hne : _)
  have hnd₂ : (kw₂.map Prod.fst).Nodup := ((h.map Prod.fst).nodup_iff).mp hnd
  exact List.eq_of_perm_of_sorted hp (hlt kw₁ hnd) (hlt kw₂ hnd₂)

/-- C5: `get_cache_key` is invariant under permutation of its keyword
arguments (they are sorted lexicographically by name, the smaller name
rendered first), but not under permutation of positional arguments:
swapping the two distinct positional arguments of the spec's example
changes the key. -/
theorem cache_key_kwarg_order_insensitive_positional_sensitive :
    (∀ (args : List PyValue) (method_name : String)
        (kw₁ kw₂ : List (String × PyValue)),
        kw₁.Perm kw₂ → (kw₁.map Prod.fst).Nodup →
        get_cache_key args method_name kw₁ = get_cache_key args method_name kw₂) ∧
    get_cache_key [PyValue.str "x"] "Service.search"
        [("b", PyValue.int 2), ("a", PyValue.int 1)]
      = get_cache_key [PyValue.str "x"] "Service.search"
        [("a", PyValue.int 1), ("b", PyValue.int 2)] ∧
    get_cache_key [PyValue.str "x"] "Service.search"
        [("b", PyValue.int 2), ("a", PyValue.int 1)]
      = "Service.search(\"x\", a=1, b=2)" ∧
    get_cache_key [PyValue.str "arg1", PyValue.str "arg2"] "m" []
      ≠ get_cache_key [PyValue.str "arg2", PyValue.str "arg1"] "m" [] := by
  refine ⟨fun args mn kw₁ kw₂ hperm hnd => ?_, rfl, rfl, by decide⟩
  unfold get_cache_key
  rw [sort_kwargs_eq_of_perm hperm hnd]

/-- C5 witness: the keyword-permutation part applied to the spec's concrete
example. -/
theorem cache_key_kwarg_order_insensitive_witness :
    get_cache_key [PyValue.str "x"] "Service.search"
        [("b", PyValue.int 2), ("a", PyValue.int 1)]
      = get_cache_key [PyValue.str "x"] "Service.search"
        [("a", PyValue.int 1), ("b", PyValue.int 2)] :=
  cache_key_kwarg_order_insensitive_positional_sensitive.1
    [PyValue.str "x"] "Service.search"
    [("b", PyValue.int 2), ("a", PyValue.int 1)]
    [("a", PyValue.int 1), ("b", PyValue.int 2)]
    (List.Perm.swap _ _ _)
    (by simp)

/-- C6: the rendered key format — `"<QualifiedName>(<args>)"` with the
qualified method name reduced to its last two dot-separated segments,
string arguments double-quoted and non-string arguments in their natural
textual form; in particular `get_cache_key(123, method_name="Service.getItem")`
is `"Service.getItem(123)"`. -/
theorem cache_key_render_format :
    get_cache_key [PyValue.int 123] "Service.getItem" [] = "Service.getItem(123)" ∧
    get_cache_key [PyValue.int 123]
        "ohdsi_webapi.services.vocabulary.VocabularyService.get_concept" []
      = "VocabularyService.get_concept(123)" ∧
    get_cache_key [PyValue.str "diabetes"] "VocabularyService.search" []
      = "VocabularyService.search(\"diabetes\")" ∧
    get_cache_key [PyValue.str "diabetes"] "VocabularyService.search"
        [("domain_id", PyValue.str "Condition"), ("page_size", PyValue.int 50)]
      = "VocabularyService.search(\"diabetes\", domain_id=\"Condition\", page_size=50)" ∧
    ∀ (args : List PyValue) (kwargs : List (String × PyValue)),
      get_cache_key args
          "ohdsi_webapi.services.vocabulary.VocabularyService.get_concept" kwargs
        = get_cache_key args "VocabularyService.get_concept" kwargs :=
  ⟨rfl, rfl, rfl, rfl, fun _ _ => rfl⟩

/-- C3: the LRU eviction scenario of the spec — a capacity-3 store, inserts
`k1,k2,k3`, a read of `k1`, then an insert of `k4` evicts exactly the
least-recently-used `k2`; the capacity invariant `size ≤ 3` holds at every
intermediate state. -/
theorem lru_eviction_scenario :
    let c0 : WebApiCache := ⟨3, 300, []⟩
    let c1 := c0.set "key1" (PyValue.str "value1") Option.none 0
    let c2 := c1.set "key2" (PyValue.str "value2") Option.none 0
    let c3 := c2.set "key3" (PyValue.str "value3") Option.none 0
    let g4 := c3.get "key1" 0
    let c5 := g4.2.set "key4" (PyValue.str "value4") Option.none 0
    g4.1 = some (PyValue.str "value1") ∧
    (c5.get "key1" 0).1 = some (PyValue.str "value1") ∧
    (c5.get "key2" 0).1 = Option.none ∧
    (c5.get "key3" 0).1 = some (PyValue.str "value3") ∧
    (c5.get "key4" 0).1 = some (PyValue.str "value4") ∧
    c0.size ≤ 3 ∧ c1.size ≤ 3 ∧ c2.size ≤ 3 ∧ c3.size ≤ 3 ∧
    g4.2.size ≤ 3 ∧ c5.size ≤ 3 :=
  ⟨rfl, rfl, rfl, rfl, rfl,
   by decide, by decide, by decide, by decide, by decide, by decide⟩

/-- C4: a `get` that finds an expired entry returns absent and removes the
entry (lazy expiry); expiry holds exactly when `now - created_at ≥
ttl_seconds`, so a TTL of 0 makes an entry expired at every read time. -/
theorem get_expired_removes_and_misses (c : WebApiCache) (key : String)
    (e : CacheEntry) (now : Nat)
    (hfind : lookupEntry key c.entries = some e)
    (hexp : e.ttl_seconds ≤ now - e.created_at) :
    ((c.get key now).1 = Option.none ∧
      (c.get key now).2.entries = removeKey key c.entries) ∧
    (∀ (e' : CacheEntry) (n : Nat),
      e'.is_expired n = true ↔ e'.ttl_seconds ≤ n - e'.created_at) ∧
    (∀ e' : CacheEntry, e'.ttl_seconds = 0 → ∀ n : Nat, e'.is_expired n = true) := by
  refine ⟨?_, fun e' n => by simp [CacheEntry.is_expired],
    fun e' h0 n => by simp [CacheEntry.is_expired, h0]⟩
  have hexpb : e.is_expired now = true := by
    simp [CacheEntry.is_expired]; exact hexp
  rw [WebApiCache.get, hfind]
  simp [hexpb]

/-- C4 witness: an entry stored with TTL 0 at time 0 is gone on the next
read. -/
theorem get_expired_removes_and_misses_witness :
    let c : WebApiCache := ⟨3, 300, [("key1", ⟨PyValue.str "value1", 0, 0⟩)]⟩
    ((c.get "key1" 1).1 = Option.none ∧
      (c.get "key1" 1).2.entries = removeKey "key1" c.entries) ∧
    (∀ (e' : CacheEntry) (n : Nat),
      e'.is_expired n = true ↔ e'.ttl_seconds ≤ n - e'.created_at) ∧
    (∀ e' : CacheEntry, e'.ttl_seconds = 0 → ∀ n : Nat, e'.is_expired n = true) :=
  get_expired_removes_and_misses ⟨3, 300, [("key1", ⟨PyValue.str "value1", 0, 0⟩)]⟩
    "key1" ⟨PyValue.str "value1", 0, 0⟩ 1 rfl (by decide)

/-- A `force_refresh` call goes straight to the underlying function and
leaves the store untouched, whether caching is enabled or not. -/
theorem cached_call_force {σ ε : Type} (cfg : DecoratorConfig) (g : Bool)
    (mn : String) (f : σ → Except ε (PyValue × σ)) (args : List PyValue)
    (kwargs : List (String × PyValue)) (st : σ) (cache : WebApiCache) (now : Nat) :
    cached_call cfg g mn f args kwargs true st cache now = (f st, cache) := by
  unfold cached_call
  by_cases h : (cfg.enabled && g) = true <;> simp [h]

/-- With caching off (per-method or process-wide), a call passes straight
through to the underlying function and leaves the store untouched. -/
theorem cached_call_disabled {σ ε : Type} (cfg : DecoratorConfig) (g : Bool)
    (mn : String) (f : σ → Except ε (PyValue × σ)) (args : List PyValue)
    (kwargs : List (String × PyValue)) (fr : Bool) (st : σ) (cache : WebApiCache)
    (now : Nat) (h : (cfg.enabled && g) = false) :
    cached_call cfg g mn f args kwargs fr st cache now = (f st, cache) := by
  unfold cached_call
  simp [h]

/-- A plain enabled call whose key lookup hits returns the cached value
without touching the underlying function. -/
theorem cached_call_hit {σ ε : Type} {cfg : DecoratorConfig} {g : Bool}
    {mn : String} (f : σ → Except ε (PyValue × σ)) {args : List PyValue}
    {kwargs : List (String × PyValue)} (st : σ) {cache c' : WebApiCache}
    {now : Nat} {v : PyValue} (h : (cfg.enabled && g) = true)
    (hHit : cache.get (get_cache_key args mn kwargs) now = (some v, c')) :
    cached_call cfg g mn f args kwargs false st cache now = (Except.ok (v, st), c') := by
  unfold cached_call
  simp only [h, if_true]
  rw [hHit]
  rfl

/-- A plain enabled call whose key lookup misses runs the underlying
function against the post-lookup store, caching only a successful result. -/
theorem cached_call_miss {σ ε : Type} {cfg : DecoratorConfig} {g : Bool}
    {mn : String} (f : σ → Except ε (PyValue × σ)) (st : σ) {args : List PyValue}
    {kwargs : List (String × PyValue)} {cache c' : WebApiCache} {now : Nat}
    (h : (cfg.enabled && g) = true)
    (hMiss : cache.get (get_cache_key args mn kwargs) now = (Option.none, c')) :
    cached_call cfg g mn f args kwargs false st cache now =
      match f st with
      | Except.error e => (Except.error e, c')
      | Except.ok (v, st') =>
        (Except.ok (v, st'),
         c'.set (get_cache_key args mn kwargs) v (some cfg.ttl_seconds) now) := by
  unfold cached_call
  simp only [h, if_true]
  rw [hMiss]
  rfl

/-- A lookup on a key that has no entry at all leaves the store unchanged. -/
theorem get_absent_frame (c : WebApiCache) (key : String) (now : Nat)
    (h : lookupEntry key c.entries = Option.none) :
    c.get key now = (Option.none, c) := by
  rw [WebApiCache.get, h]

/-- An underlying method instrumented with an invocation counter: the
`n`-th invocation returns `results n` and bumps the counter.  Any
deterministic callee is captured, up to observation, by its sequence of
results, so theorems about "how many times the underlying function is
invoked" quantify over `results`. -/
def counter_method (results : Nat → PyValue) : Nat → Except Unit (PyValue × Nat) :=
  fun n => Except.ok (results n, n + 1)

/-- C1: with caching enabled, two decorated calls with identical arguments
invoke the underlying function exactly once (the counter instrumenting the
callee ends at `count0 + 1` after both calls) and the second call returns a
result equal to the first's, served from the cache.  Hypotheses: the first
call misses, the store holds at least one entry, and the entry is still
within its TTL at the time of the second call. -/
theorem cached_twice_invokes_once (results : Nat → PyValue) (cfg : DecoratorConfig)
    (method_name : String) (args : List PyValue) (kwargs : List (String × PyValue))
    (count0 : Nat) (cache0 : WebApiCache) (now1 now2 : Nat)
    (hEn : cfg.enabled = true)
    (hCap : 1 ≤ cache0.max_size)
    (hMiss : (cache0.get (get_cache_key args method_name kwargs) now1).1 = Option.none)
    (hLive : now2 - now1 < cfg.ttl_seconds) :
    (cached_call cfg true method_name (counter_method results)
        args kwargs false count0 cache0 now1).1
      = Except.ok (results count0, count0 + 1) ∧
    (cached_call cfg true method_name (counter_method results)
        args kwargs false (count0 + 1)
        (cached_call cfg true method_name (counter_method results)
          args kwargs false count0 cache0 now1).2 now2).1
      = Except.ok (results count0, count0 + 1) := by
  have hEng : (cfg.enabled && true) = true := by rw [hEn]; rfl
  rcases hg : cache0.get (get_cache_key args method_name kwargs) now1 with ⟨r0, cA⟩
  have hr0 : r0 = Option.none := by rw [hg] at hMiss; exact hMiss
  subst hr0
  have h1 : cached_call cfg true method_name (counter_method results)
      args kwargs false count0 cache0 now1
      = (Except.ok (results count0, count0 + 1),
         cA.set (get_cache_key args method_name kwargs) (results count0)
           (some cfg.ttl_seconds) now1) :=
    (cached_call_miss _ count0 hEng hg).trans rfl
  refine ⟨by rw [h1], ?_⟩
  rw [h1]
  have hcapA : 1 ≤ cA.max_size := by
    have hpres := get_preserves_max_size cache0 (get_cache_key args method_name kwargs) now1
    rw [hg] at hpres
    exact hpres ▸ hCap
  have hlook := lookupEntry_set_self cA (get_cache_key args method_name kwargs)
    (results count0) (some cfg.ttl_seconds) now1 hcapA
  have hfst : ((cA.set (get_cache_key args method_name kwargs) (results count0)
      (some cfg.ttl_seconds) now1).get (get_cache_key args method_name kwargs) now2).1
      = some (results count0) := by
    rw [WebApiCache.get, hlook]
    have hexp : (⟨results count0, now1, cfg.ttl_seconds⟩ :
        CacheEntry).is_expired now2 = false := by
      simp [CacheEntry.is_expired]
      omega
    simp [hexp]
  rcases hg2 : (cA.set (get_cache_key args method_name kwargs) (results count0)
      (some cfg.ttl_seconds) now1).get (get_cache_key args method_name kwargs) now2
    with ⟨rv, cB⟩
  rw [hg2] at hfst
  subst hfst
  rw [cached_call_hit _ (count0 + 1) hEng hg2]

/-- C1 witness: a concrete pair of calls on an empty capacity-3 store. -/
theorem cached_twice_invokes_once_witness :
    (cached_call ⟨300, true⟩ true "Service.m" (counter_method fun n => PyValue.int n)
        [] [] false 0 ⟨3, 300, []⟩ 0).1
      = Except.ok (PyValue.int 0, 1) ∧
    (cached_call ⟨300, true⟩ true "Service.m" (counter_method fun n => PyValue.int n)
        [] [] false 1
        (cached_call ⟨300, true⟩ true "Service.m" (counter_method fun n => PyValue.int n)
          [] [] false 0 ⟨3, 300, []⟩ 0).2 10).1
      = Except.ok (PyValue.int 0, 1) :=
  cached_twice_invokes_once (fun n => PyValue.int n) ⟨300, true⟩ "Service.m" [] []
    0 ⟨3, 300, []⟩ 0 10 rfl (by decide) rfl (by decide)

/-- C2: with a live cache entry for the key, a `force_refresh=True` call
invokes the underlying function and returns its fresh result while leaving
the store completely untouched (no read promotion, no write); a subsequent
plain call with the same arguments then returns the pre-refresh cached value
without invoking the underlying function again (the counter stays at
`count0 + 1`). -/
theorem force_refresh_bypasses_cache (results : Nat → PyValue) (cfg : DecoratorConfig)
    (method_name : String) (args : List PyValue) (kwargs : List (String × PyValue))
    (count0 : Nat) (cache : WebApiCache) (now1 now2 : Nat) (v0 : PyValue)
    (hEn : cfg.enabled = true)
    (hHit1 : (cache.get (get_cache_key args method_name kwargs) now1).1 = some v0)
    (hHit2 : (cache.get (get_cache_key args method_name kwargs) now2).1 = some v0) :
    (cached_call cfg true method_name (counter_method results)
        args kwargs true count0 cache now1)
      = (Except.ok (results count0, count0 + 1), cache) ∧
    (cached_call cfg true method_name (counter_method results)
        args kwargs false (count0 + 1) cache now2).1
      = Except.ok (v0, count0 + 1) := by
  have hEng : (cfg.enabled && true) = true := by rw [hEn]; rfl
  refine ⟨cached_call_force cfg true method_name _ args kwargs count0 cache now1, ?_⟩
  rcases hg2 : cache.get (get_cache_key args method_name kwargs) now2 with ⟨rv, cB⟩
  have hrv : rv = some v0 := by rw [hg2] at hHit2; exact hHit2
  subst hrv
  rw [cached_call_hit _ (count0 + 1) hEng hg2]

/-- C2 witness: a concrete store holding a live pre-refresh value. -/
theorem force_refresh_bypasses_cache_witness :
    (cached_call ⟨300, true⟩ true "Service.m" (counter_method fun n => PyValue.int n)
        [] [] true 0 ⟨3, 300, [("Service.m()", ⟨PyValue.str "cached", 0, 300⟩)]⟩ 10)
      = (Except.ok (PyValue.int 0, 1),
         ⟨3, 300, [("Service.m()", ⟨PyValue.str "cached", 0, 300⟩)]⟩) ∧
    (cached_call ⟨300, true⟩ true "Service.m" (counter_method fun n => PyValue.int n)
        [] [] false 1 ⟨3, 300, [("Service.m()", ⟨PyValue.str "cached", 0, 300⟩)]⟩ 20).1
      = Except.ok (PyValue.str "cached", 1) :=
  force_refresh_bypasses_cache (fun n => PyValue.int n) ⟨300, true⟩ "Service.m" [] []
    0 ⟨3, 300, [("Service.m()", ⟨PyValue.str "cached", 0, 300⟩)]⟩ 10 20
    (PyValue.str "cached") rfl rfl rfl

/-- C9 counterexample: the claim's frame condition "the store's contents are
exactly as before the failed call" fails when the store holds an *expired*
entry under the call's key — the lookup preceding the failed call lazily
removes it, so the store after the error differs from the store before,
even though the error is propagated unchanged and nothing is cached. -/
theorem error_leaves_store_unchanged_counterexample :
    (cached_call ⟨300, true⟩ true "Service.m"
        (fun _ => (Except.error "network error" : Except String (PyValue × Unit)))
        [] [] false () ⟨3, 300, [("Service.m()", ⟨PyValue.str "old", 0, 0⟩)]⟩ 5).1
      = Except.error "network error" ∧
    (cached_call ⟨300, true⟩ true "Service.m"
        (fun _ => (Except.error "network error" : Except String (PyValue × Unit)))
        [] [] false () ⟨3, 300, [("Service.m()", ⟨PyValue.str "old", 0, 0⟩)]⟩ 5).2.entries
      ≠ [("Service.m()", (⟨PyValue.str "old", 0, 0⟩ : CacheEntry))] :=
  ⟨rfl, fun h => absurd (congrArg List.length h) (by decide)⟩

/-- C9 (amended): an error of the underlying wrapped call propagates
unchanged through the decorator and nothing is stored — no entry is added or
updated on any path (force-refresh, caching disabled, or a plain miss); the
store after a failed plain call equals the post-lookup store, which differs
from the pre-call store only when the read lazily removed an expired entry
for the key, and is literally unchanged when the key had no entry at all. -/
theorem error_propagates_nothing_cached {σ ε : Type} (cfg : DecoratorConfig)
    (g : Bool) (method_name : String) (f : σ → Except ε (PyValue × σ))
    (args : List PyValue) (kwargs : List (String × PyValue)) (st : σ)
    (cache : WebApiCache) (now : Nat) (err : ε)
    (hErr : f st = Except.error err) :
    cached_call cfg g method_name f args kwargs true st cache now
      = (Except.error err, cache) ∧
    ((cfg.enabled && g) = false →
      cached_call cfg g method_name f args kwargs false st cache now
        = (Except.error err, cache)) ∧
    ((cfg.enabled && g) = true →
      (cache.get (get_cache_key args method_name kwargs) now).1 = Option.none →
      cached_call cfg g method_name f args kwargs false st cache now
        = (Except.error err,
           (cache.get (get_cache_key args method_name kwargs) now).2)) ∧
    (lookupEntry (get_cache_key args method_name kwargs) cache.entries = Option.none →
      (cache.get (get_cache_key args method_name kwargs) now).2 = cache) := by
  refine ⟨?_, fun hdis => ?_, fun hen hmiss => ?_, fun habs => ?_⟩
  · rw [cached_call_force, hErr]
  · rw [cached_call_disabled cfg g method_name f args kwargs false st cache now hdis, hErr]
  · rcases hg : cache.get (get_cache_key args method_name kwargs) now with ⟨r0, cA⟩
    have hr0 : r0 = Option.none := by rw [hg] at hmiss; exact hmiss
    subst hr0
    rw [cached_call_miss f st hen hg, hErr]
  · rw [get_absent_frame cache (get_cache_key args method_name kwargs) now habs]

/-- C9 witness: a concrete failing call on a plain miss against an empty
store — the error comes back unchanged and the store stays empty. -/
theorem error_propagates_nothing_cached_witness :
    cached_call ⟨300, true⟩ true "Service.m"
        (fun _ => (Except.error "network error" : Except String (PyValue × Unit)))
        [] [] false () ⟨3, 300, []⟩ 5
      = (Except.error "network error", ((⟨3, 300, []⟩ : WebApiCache).get "Service.m()" 5).2) :=
  ((error_propagates_nothing_cached ⟨300, true⟩ true "Service.m"
      (fun _ => (Except.error "network error" : Except String (PyValue × Unit)))
      [] [] () ⟨3, 300, []⟩ 5 "network error" rfl).2.2.1 rfl rfl)

/-- C7 counterexample: `cache_contents()` does not return a bare list of
per-entry records — on a store holding one live entry it returns a dict
with an `entries` list and a `stats` snapshot (as the unit and integration
tests index it, `contents["entries"]`). -/
theorem cache_contents_not_a_list_counterexample :
    PyValue.isList (cache_contents
        ⟨100, 300, [("test_key", ⟨PyValue.dict [("test", PyValue.str "data")], 10, 300⟩)]⟩
        true 15) = false ∧
    dictKeys (cache_contents
        ⟨100, 300, [("test_key", ⟨PyValue.dict [("test", PyValue.str "data")], 10, 300⟩)]⟩
        true 15) = ["entries", "stats"] :=
  ⟨rfl, rfl⟩

/-- C7 (amended): `cache_contents()` returns a dict with exactly the fields
`entries` and `stats`; `entries` holds one record per stored entry, each a
dict with exactly the fields `key`, `data_type`, `created_ago` and
`expires_in`, where `data_type` is the coarse shape description
("list (N items)", "dict (N keys)", or a scalar type name) and
`created_ago` / `expires_in` are seconds computed against the current time
at call time. -/
theorem cache_contents_itemized (c : WebApiCache) (enabled : Bool) (now : Nat) :
    dictKeys (cache_contents c enabled now) = ["entries", "stats"] ∧
    dictGet "stats" (cache_contents c enabled now) = some (c.stats enabled) ∧
    dictGet "entries" (cache_contents c enabled now) = some (PyValue.list (c.contents now)) ∧
    (c.contents now).length = c.size ∧
    (∀ r ∈ c.contents now,
      dictKeys r = ["key", "data_type", "created_ago", "expires_in"]) ∧
    (∀ kv ∈ c.entries,
      dictGet "key" (contents_record now kv) = some (PyValue.str kv.1) ∧
      dictGet "data_type" (contents_record now kv)
        = some (PyValue.str (data_type kv.2.value)) ∧
      dictGet "created_ago" (contents_record now kv)
        = some (PyValue.int ((now : Int) - (kv.2.created_at : Int))) ∧
      dictGet "expires_in" (contents_record now kv)
        = some (PyValue.int ((kv.2.created_at : Int) + (kv.2.ttl_seconds : Int) - (now : Int)))) ∧
    data_type (PyValue.list [PyValue.int 1, PyValue.int 2, PyValue.int 3]) = "list (3 items)" ∧
    data_type (PyValue.dict [("test", PyValue.str "data")]) = "dict (1 keys)" ∧
    data_type (PyValue.str "hello") = "str" ∧
    data_type (PyValue.int 42) = "int" ∧
    data_type (PyValue.obj "MagicMock") = "MagicMock" := by
  refine ⟨rfl, rfl, rfl, List.length_map _ _, fun r hr => ?_, fun kv _ => ⟨rfl, rfl, rfl, rfl⟩,
    rfl, rfl, rfl, rfl, rfl⟩
  rcases List.mem_map.mp hr with ⟨kv, _, rfl⟩
  rfl

/-- C7 witness: the field list of the record produced for a concrete
entry. -/
theorem cache_contents_itemized_witness :
    dictKeys (cache_contents
        ⟨100, 300, [("test_key", ⟨PyValue.dict [("test", PyValue.str "data")], 10, 300⟩)]⟩
        true 15) = ["entries", "stats"] ∧
    (∀ r ∈ (⟨100, 300, [("test_key", ⟨PyValue.dict [("test", PyValue.str "data")], 10, 300⟩)]⟩ :
        WebApiCache).contents 15,
      dictKeys r = ["key", "data_type", "created_ago", "expires_in"]) :=
  ⟨(cache_contents_itemized
      ⟨100, 300, [("test_key", ⟨PyValue.dict [("test", PyValue.str "data")], 10, 300⟩)]⟩
      true 15).1,
   (cache_contents_itemized
      ⟨100, 300, [("test_key", ⟨PyValue.dict [("test", PyValue.str "data")], 10, 300⟩)]⟩
      true 15).2.2.2.2.1⟩

/-- C8 counterexample: the stats snapshot has no `ttl_seconds_default` field
— its fourth field is named `ttl_seconds` (as the unit tests read it:
`stats["ttl_seconds"]`). -/
theorem cache_stats_key_name_counterexample :
    dictKeys (cache_stats ⟨100, 300, []⟩ true)
      ≠ ["size", "max_size", "enabled", "ttl_seconds_default"] ∧
    dictGet "ttl_seconds_default" (cache_stats ⟨100, 300, []⟩ true) = Option.none :=
  ⟨by decide, rfl⟩

/-- C8 (amended): `stats()` / `cache_stats()` is a read-only snapshot with
exactly the fields `size` (current number of entries), `max_size`
(capacity), `enabled` (the process-wide switch) and `ttl_seconds` (the
store's fallback TTL when none is given per-entry); after `clear_cache()`
the reported size is 0. -/
theorem cache_stats_snapshot (c : WebApiCache) (enabled : Bool) :
    dictKeys (cache_stats c enabled) = ["size", "max_size", "enabled", "ttl_seconds"] ∧
    dictGet "size" (cache_stats c enabled) = some (PyValue.int (c.size : Int)) ∧
    dictGet "max_size" (cache_stats c enabled) = some (PyValue.int (c.max_size : Int)) ∧
    dictGet "enabled" (cache_stats c enabled) = some (PyValue.bool enabled) ∧
    dictGet "ttl_seconds" (cache_stats c enabled) = some (PyValue.int (c.ttl_seconds : Int)) ∧
    dictGet "size" (cache_stats (clear_cache c) enabled) = some (PyValue.int 0) :=
  ⟨rfl, rfl, rfl, rfl, rfl, rfl⟩

/-- C10: the decorator's key construction binds every declared keyword
parameter — a parameter the caller omits is bound to its declared default,
and every parameter whose bound value is `None` is excluded; consequently
`VocabularyService.search("diabetes")` maps to the key
`VocabularyService.search("diabetes", page=1, page_size=20)`, and passing
`page=1` explicitly produces the identical key (so it hits the same cache
entry). -/
theorem bound_defaults_shape_cache_key :
    (∀ (params : List Param) (name : String) (d : PyValue)
        (kwargs : List (String × PyValue)),
        (∀ p ∈ params, p.name = name → p.default = some d) →
        kwargsLookup name kwargs = Option.none →
        bind_kwargs params ((name, d) :: kwargs) = bind_kwargs params kwargs) ∧
    bind_kwargs searchParams [] = [("page", PyValue.int 1), ("page_size", PyValue.int 20)] ∧
    get_cache_key [PyValue.str "diabetes"] searchQualifiedName (bind_kwargs searchParams [])
      = "VocabularyService.search(\"diabetes\", page=1, page_size=20)" ∧
    get_cache_key [PyValue.str "diabetes"] searchQualifiedName
        (bind_kwargs searchParams [("page", PyValue.int 1)])
      = get_cache_key [PyValue.str "diabetes"] searchQualifiedName
        (bind_kwargs searchParams []) ∧
    get_cache_key [PyValue.str "diabetes"] searchQualifiedName
        (bind_kwargs searchParams [("domain_id", PyValue.str "Condition")])
      = "VocabularyService.search(\"diabetes\", domain_id=\"Condition\", page=1, page_size=20)" := by
  refine ⟨fun params name d kwargs hdef hnone => ?_, rfl, rfl, rfl, rfl⟩
  induction params with
  | nil => rfl
  | cons p ps ih =>
    have htail : bind_kwargs ps ((name, d) :: kwargs) = bind_kwargs ps kwargs :=
      ih fun q hq => hdef q (List.mem_cons_of_mem p hq)
    have hhead : p.name = name → p.default = some d :=
      hdef p (List.mem_cons_self p ps)
    by_cases hn : name = p.name
    · subst hn
      have hdefp : p.default = some d := hhead rfl
      simp [bind_kwargs, kwargsLookup, hnone, hdefp, htail]
    · simp [bind_kwargs, kwargsLookup, hn, htail]

/-- C10 witness: the general binding fact applied to the vocabulary search
signature — passing `page=1` explicitly binds exactly as omitting it. -/
theorem bound_defaults_shape_cache_key_witness :
    bind_kwargs searchParams [("page", PyValue.int 1)] = bind_kwargs searchParams [] :=
  bound_defaults_shape_cache_key.1 searchParams "page" (PyValue.int 1) []
    (by
      intro p hp hname
      fin_cases hp <;> first | rfl | exact absurd hname (by decide))
    rfl

end OhdsiCache
